import Mathlib

/-
Shallow embedding of the Liquidity Pool Manager smart contract
(src/unnamed/part_009, a Clarity contract).

Modelling conventions:
- Clarity `uint` is modelled as `Nat`.  All trade-relevant arithmetic in the
  contract is plain addition, truncated subtraction and floor division; Clarity
  aborts a transaction on underflow, and the only subtractions performed are
  (amount - fee) with fee = amount*30/10000 <= amount and reserve updates whose
  non-underflow the theorems establish, so Nat truncated subtraction coincides
  with the source on every reachable state.
- Clarity persistent maps are association lists with `mapGet` / `mapSet`
  (set overwrites the existing binding).
- Principals are modelled as `Nat` identifiers; `tx-sender` and
  `stacks-block-height` are explicit `sender` / `height` arguments.
- A Clarity public function is atomic: any `asserts!` / `unwrap!` failure rolls
  back every prior write.  Each public function therefore returns
  `Except Err (Contract × Nat)`: on error no successor state is produced and
  the caller keeps the old state.
- Native STX transfers (`stx-transfer?`) move value outside the contract's own
  data maps; they are the abstract Asset Transfer collaborator and are modelled
  as succeeding (their failure aborts with no state change, which the `Except`
  encoding already captures for every other failure).
-/

namespace Puddle

/-- Association-list lookup, modelling Clarity `map-get?`. -/
def mapGet {α β : Type} [DecidableEq α] (m : List (α × β)) (k : α) : Option β :=
  match m with
  | [] => none
  | (k', v) :: rest => if k' = k then some v else mapGet rest k

/-- Association-list overwrite, modelling Clarity `map-set`. -/
def mapSet {α β : Type} [DecidableEq α] (m : List (α × β)) (k : α) (v : β) :
    List (α × β) :=
  match m with
  | [] => [(k, v)]
  | (k', v') :: rest => if k' = k then (k, v) :: rest else (k', v') :: mapSet rest k v

/-- Error codes of the contract (err u100 .. err u110), plus `runtimeAbort`
for the `unwrap-panic` on the farmer pool-list capacity. -/
inductive Err where
  | ownerOnly
  | notFound
  | unauthorized
  | insufficientBalance
  | alreadyExists
  | invalidZone
  | zoneLocked
  | insufficientLiquidity
  | invalidAmount
  | poolNotFound
  | transferFailed
  | runtimeAbort
deriving DecidableEq, Repr

/-- The `liquidity-pools` map entry. -/
structure Pool where
  lpFarmer : Nat
  stxReserve : Nat
  usdtReserve : Nat
  totalVolume : Nat
  totalTransactions : Nat
  zoneCount : Nat
  currentZone : Nat
  zoneUnlockTime : Nat
  zoneDuration : Nat
  createdAt : Nat
  active : Bool
deriving DecidableEq, Repr

/-- The `user-positions` map entry. -/
structure UserPosition where
  stxDeposited : Nat
  usdtDeposited : Nat
  rewardsEarned : Nat
  lastInteraction : Nat
  canClaim : Bool
deriving DecidableEq, Repr

/-- The `farmer-rewards` map entry. -/
structure FarmerReward where
  totalFeesEarned : Nat
  lastClaimed : Nat
deriving DecidableEq, Repr

/-- The `zone-statistics` map entry. -/
structure ZoneStats where
  totalBuys : Nat
  totalSells : Nat
  volume : Nat
  uniqueUsers : Nat
  rewardsDistributed : Nat
deriving DecidableEq, Repr

/-- The `user-zone-participation` map entry. -/
structure ZoneParticipation where
  participated : Bool
  volumeContributed : Nat
deriving DecidableEq, Repr

/-- The whole persistent state of the contract: the data vars and data maps. -/
structure Contract where
  poolNonce : Nat
  totalPoolsCreated : Nat
  pools : List (Nat × Pool)
  positions : List ((Nat × Nat) × UserPosition)
  farmerRewards : List ((Nat × Nat) × FarmerReward)
  zoneStats : List ((Nat × Nat) × ZoneStats)
  zoneParticipation : List ((Nat × Nat × Nat) × ZoneParticipation)
  farmerPools : List (Nat × List Nat)
deriving DecidableEq, Repr

def emptyContract : Contract :=
  { poolNonce := 0, totalPoolsCreated := 0, pools := [], positions := [],
    farmerRewards := [], zoneStats := [], zoneParticipation := [], farmerPools := [] }

/-- Constant `trading-fee` (basis points). -/
def tradingFee : Nat := 30

/-- Constant `basis-points`. -/
def basisPoints : Nat := 10000

/-- Private `calculate-fee`. -/
def calculateFee (amount : Nat) : Nat :=
  amount * tradingFee / basisPoints

/-- Largest Clarity `uint`: Clarity integers are 128-bit and every
arithmetic overflow aborts the transaction. -/
def uintMax : Nat := 2 ^ 128 - 1

/-- Private `calculate-fee` under Clarity's checked 128-bit semantics:
`(* amount u30)` aborts (`none`) when the product exceeds `uintMax`; the
division by `u10000` can then never overflow.  `buy-usdt` and `sell-usdt`
evaluate this in their `let` bindings before any assert, so the abort is
reachable by calling them with a large enough amount. -/
def calculateFeeChecked (amount : Nat) : Option Nat :=
  if amount * tradingFee ≤ uintMax then some (amount * tradingFee / basisPoints)
  else none

/-- Private `calculate-zone-multiplier`. -/
def calculateZoneMultiplier (zone : Nat) : Nat :=
  100 + zone * 50

/-- Private `calculate-user-reward`. -/
def calculateUserReward (contribution totalVolume zone poolFees : Nat) : Nat :=
  let baseReward := contribution * poolFees / totalVolume
  let multiplier := calculateZoneMultiplier zone
  baseReward * multiplier / 100

/-- Private `is-zone-unlocked`: the current block height has reached the
pool's `zone-unlock-time` (false when the pool does not exist). -/
def isZoneUnlocked (c : Contract) (height poolId : Nat) : Bool :=
  match mapGet c.pools poolId with
  | none => false
  | some pool => pool.zoneUnlockTime ≤ height

/-- Private `update-zone-if-needed`: advance `current-zone` by one and push
`zone-unlock-time` forward by `zone-duration` when due. -/
def updateZoneIfNeeded (c : Contract) (height poolId : Nat) : Contract :=
  match mapGet c.pools poolId with
  | none => c
  | some pool =>
    if pool.zoneUnlockTime ≤ height ∧ pool.currentZone < pool.zoneCount then
      let advanced := { pool with
        currentZone := pool.currentZone + 1,
        zoneUnlockTime := pool.zoneUnlockTime + pool.zoneDuration }
      { c with pools := mapSet c.pools poolId advanced }
    else c

/-- Read-only `get-pool-info`. -/
def getPoolInfo (c : Contract) (poolId : Nat) : Option Pool :=
  mapGet c.pools poolId

/-- Read-only `get-user-position`. -/
def getUserPosition (c : Contract) (poolId user : Nat) : Option UserPosition :=
  mapGet c.positions (poolId, user)

/-- Read-only `estimate-user-reward`.  Note the source passes the pool's own
`total-volume` both as the `total-volume` and as the `pool-fees` argument of
`calculate-user-reward`. -/
def estimateUserReward (c : Contract) (poolId user : Nat) : Except Err Nat :=
  match mapGet c.pools poolId with
  | none => .error .poolNotFound
  | some pool =>
    match mapGet c.positions (poolId, user) with
    | none => .error .notFound
    | some position =>
      let totalVolume := pool.totalVolume
      let currentZone := pool.currentZone
      let userContribution := position.stxDeposited + position.usdtDeposited
      if 0 < totalVolume then
        .ok (calculateUserReward userContribution totalVolume currentZone pool.totalVolume)
      else
        .ok 0

/-- Public `create-liquidity-pool`. -/
def createLiquidityPool (c : Contract) (height sender initialStx initialUsdt
    zoneCount zoneDuration : Nat) : Except Err (Contract × Nat) :=
  let poolId := c.poolNonce
  let unlockTime := height + zoneDuration
  if initialStx = 0 then .error .invalidAmount
  else if initialUsdt = 0 then .error .invalidAmount
  else if ¬(0 < zoneCount ∧ zoneCount ≤ 10) then .error .invalidZone
  else if zoneDuration = 0 then .error .invalidZone
  else
    let currentPools := (mapGet c.farmerPools sender).getD []
    if 100 < (currentPools ++ [poolId]).length then .error .runtimeAbort
    else
      .ok ({ c with
        pools := mapSet c.pools poolId
          ({ lpFarmer := sender, stxReserve := initialStx, usdtReserve := initialUsdt,
             totalVolume := 0, totalTransactions := 0, zoneCount := zoneCount,
             currentZone := 0, zoneUnlockTime := unlockTime,
             zoneDuration := zoneDuration, createdAt := height, active := true }),
        farmerRewards := mapSet c.farmerRewards (poolId, sender)
          ({ totalFeesEarned := 0, lastClaimed := height }),
        farmerPools := mapSet c.farmerPools sender (currentPools ++ [poolId]),
        poolNonce := poolId + 1,
        totalPoolsCreated := c.totalPoolsCreated + 1 }, poolId)

/-- Public `buy-usdt`.  All `let` bindings are taken on the pool snapshot read
at entry; in particular the reserve-updating `map-set` merges into that stale
snapshot even though `update-zone-if-needed` may have written an advanced zone
in between, exactly as the source does. -/
def buyUsdt (c : Contract) (height sender poolId stxAmount : Nat) :
    Except Err (Contract × Nat) :=
  match mapGet c.pools poolId with
  | none => .error .poolNotFound
  | some pool =>
    let fee := calculateFee stxAmount
    let stxAfterFee := stxAmount - fee
    let usdtOut := stxAfterFee * pool.usdtReserve / (pool.stxReserve + stxAfterFee)
    let currentPosition := (mapGet c.positions (poolId, sender)).getD
      ({ stxDeposited := 0, usdtDeposited := 0, rewardsEarned := 0,
         lastInteraction := 0, canClaim := false })
    let currentZone := pool.currentZone
    if pool.active = false then .error .poolNotFound
    else if stxAmount = 0 then .error .invalidAmount
    else if usdtOut = 0 then .error .insufficientLiquidity
    else
      let c1 := updateZoneIfNeeded c height poolId
      let newPool := { pool with
        stxReserve := pool.stxReserve + stxAmount,
        usdtReserve := pool.usdtReserve - usdtOut,
        totalVolume := pool.totalVolume + stxAmount,
        totalTransactions := pool.totalTransactions + 1 }
      let c2 := { c1 with pools := mapSet c1.pools poolId newPool }
      let newPosition := { currentPosition with
        stxDeposited := currentPosition.stxDeposited + stxAmount,
        usdtDeposited := currentPosition.usdtDeposited + usdtOut,
        lastInteraction := height,
        canClaim := false }
      let c3 := { c2 with positions := mapSet c2.positions (poolId, sender) newPosition }
      let zs := (mapGet c3.zoneStats (poolId, currentZone)).getD
        ({ totalBuys := 0, totalSells := 0, volume := 0, uniqueUsers := 0,
           rewardsDistributed := 0 })
      let newZs := { zs with totalBuys := zs.totalBuys + 1, volume := zs.volume + stxAmount }
      let c4 := { c3 with zoneStats := mapSet c3.zoneStats (poolId, currentZone) newZs }
      let newPart : ZoneParticipation := { participated := true, volumeContributed := stxAmount }
      let c5 := { c4 with zoneParticipation :=
                    mapSet c4.zoneParticipation (poolId, sender, currentZone) newPart }
      match mapGet c5.farmerRewards (poolId, pool.lpFarmer) with
      | none => .error .notFound
      | some frd =>
        let newFrd := { frd with totalFeesEarned := frd.totalFeesEarned + fee }
        .ok ({ c5 with farmerRewards :=
                         mapSet c5.farmerRewards (poolId, pool.lpFarmer) newFrd }, usdtOut)

/-- Public `sell-usdt`.  As in `buy-usdt`, the reserve-updating `map-set`
merges into the stale pool snapshot read at entry. -/
def sellUsdt (c : Contract) (height sender poolId usdtAmount : Nat) :
    Except Err (Contract × Nat) :=
  match mapGet c.pools poolId with
  | none => .error .poolNotFound
  | some pool =>
    match mapGet c.positions (poolId, sender) with
    | none => .error .notFound
    | some position =>
      let fee := calculateFee usdtAmount
      let usdtAfterFee := usdtAmount - fee
      let stxOut := usdtAfterFee * pool.stxReserve / (pool.usdtReserve + usdtAfterFee)
      let currentZone := pool.currentZone
      if pool.active = false then .error .poolNotFound
      else if usdtAmount = 0 then .error .invalidAmount
      else if position.usdtDeposited < usdtAmount then .error .insufficientBalance
      else if stxOut = 0 then .error .insufficientLiquidity
      else if isZoneUnlocked c height poolId = false then .error .zoneLocked
      else
        let c1 := updateZoneIfNeeded c height poolId
        let newPool := { pool with
          stxReserve := pool.stxReserve - stxOut,
          usdtReserve := pool.usdtReserve + usdtAmount,
          totalVolume := pool.totalVolume + usdtAmount,
          totalTransactions := pool.totalTransactions + 1 }
        let c2 := { c1 with pools := mapSet c1.pools poolId newPool }
        let newPosition := { position with
          usdtDeposited := position.usdtDeposited - usdtAmount,
          lastInteraction := height,
          canClaim := true }
        let c3 := { c2 with positions := mapSet c2.positions (poolId, sender) newPosition }
        let zs := (mapGet c3.zoneStats (poolId, currentZone)).getD
          ({ totalBuys := 0, totalSells := 0, volume := 0, uniqueUsers := 0,
             rewardsDistributed := 0 })
        let newZs := { zs with totalSells := zs.totalSells + 1, volume := zs.volume + usdtAmount }
        let c4 := { c3 with zoneStats := mapSet c3.zoneStats (poolId, currentZone) newZs }
        match mapGet c4.farmerRewards (poolId, pool.lpFarmer) with
        | none => .error .notFound
        | some frd =>
          let newFrd := { frd with totalFeesEarned := frd.totalFeesEarned + fee }
          .ok ({ c4 with farmerRewards :=
                           mapSet c4.farmerRewards (poolId, pool.lpFarmer) newFrd }, stxOut)

/-- Public `claim-rewards`. -/
def claimRewards (c : Contract) (height sender poolId : Nat) :
    Except Err (Contract × Nat) :=
  match mapGet c.pools poolId with
  | none => .error .poolNotFound
  | some pool =>
    match mapGet c.positions (poolId, sender) with
    | none => .error .notFound
    | some position =>
      let currentZone := pool.currentZone
      let userContribution := position.stxDeposited + position.usdtDeposited
      let totalVolume := pool.totalVolume
      let reward := if 0 < totalVolume then
          calculateUserReward userContribution totalVolume currentZone pool.totalVolume
        else 0
      if pool.active = false then .error .poolNotFound
      else if isZoneUnlocked c height poolId = false then .error .zoneLocked
      else if reward = 0 then .error .invalidAmount
      else if position.canClaim = false then .error .unauthorized
      else
        let newPosition := { position with
          rewardsEarned := position.rewardsEarned + reward,
          canClaim := false,
          lastInteraction := height }
        let c1 := { c with positions := mapSet c.positions (poolId, sender) newPosition }
        match mapGet c1.zoneStats (poolId, currentZone) with
        | none => .error .notFound
        | some zs =>
          let newZs := { zs with rewardsDistributed := zs.rewardsDistributed + reward }
          .ok ({ c1 with zoneStats :=
                           mapSet c1.zoneStats (poolId, currentZone) newZs }, reward)

/-- Public `claim-farmer-rewards`. -/
def claimFarmerRewards (c : Contract) (height sender poolId : Nat) :
    Except Err (Contract × Nat) :=
  match mapGet c.pools poolId with
  | none => .error .poolNotFound
  | some pool =>
    match mapGet c.farmerRewards (poolId, sender) with
    | none => .error .notFound
    | some rewards =>
      let claimable := rewards.totalFeesEarned
      if ¬(sender = pool.lpFarmer) then .error .unauthorized
      else if claimable = 0 then .error .invalidAmount
      else
        let newRewards := { rewards with totalFeesEarned := 0, lastClaimed := height }
        .ok ({ c with farmerRewards :=
                        mapSet c.farmerRewards (poolId, sender) newRewards }, claimable)

/-- The successor state of an operation result, keeping the old state on error
(Clarity rollback). -/
def stateAfter (r : Except Err (Contract × Nat)) (old : Contract) : Contract :=
  match r with
  | .ok (c, _) => c
  | .error _ => old

/-- The returned amount of a successful operation. -/
def resultAmount (r : Except Err (Contract × Nat)) : Option Nat :=
  match r with
  | .ok (_, v) => some v
  | .error _ => none

/-- A buy or sell request: height at submission, sender, pool id, amount. -/
inductive TradeOp where
  | buy (height sender poolId amount : Nat)
  | sell (height sender poolId amount : Nat)
deriving DecidableEq, Repr

/-- Apply one trade, keeping the old state when the operation fails. -/
def applyTrade (c : Contract) : TradeOp → Contract
  | .buy height sender poolId amount => stateAfter (buyUsdt c height sender poolId amount) c
  | .sell height sender poolId amount => stateAfter (sellUsdt c height sender poolId amount) c

/-- Apply a finite sequence of trades in order. -/
def applyTrades (c : Contract) (ops : List TradeOp) : Contract :=
  ops.foldl applyTrade c

/-- Every pool recorded in the state has both reserves strictly positive. -/
def reservesPositive (c : Contract) : Prop :=
  ∀ poolId pool, mapGet c.pools poolId = some pool →
    0 < pool.stxReserve ∧ 0 < pool.usdtReserve

deriving instance DecidableEq for Except

/-
Concrete test fixtures: the pool of Scenario A (created by principal 0 at
height 0 with reserves 10_000_000 / 10_000_000, 3 zones of duration 10) and
the state after user 1 buys 100_000 STX worth at height 0.
-/

def cA : Contract :=
  stateAfter (createLiquidityPool emptyContract 0 0 10000000 10000000 3 10) emptyContract

def cB : Contract :=
  stateAfter (buyUsdt cA 0 1 0 100000) cA

/-- The pool record of `cA`. -/
def poolA : Pool :=
  { lpFarmer := 0, stxReserve := 10000000, usdtReserve := 10000000,
    totalVolume := 0, totalTransactions := 0, zoneCount := 3, currentZone := 0,
    zoneUnlockTime := 10, zoneDuration := 10, createdAt := 0, active := true }

/-- The pool record of `cB`. -/
def poolB : Pool :=
  { lpFarmer := 0, stxReserve := 10100000, usdtReserve := 9901285,
    totalVolume := 100000, totalTransactions := 1, zoneCount := 3, currentZone := 0,
    zoneUnlockTime := 10, zoneDuration := 10, createdAt := 0, active := true }

/-- User 1's position record in `cB`. -/
def posB : UserPosition :=
  { stxDeposited := 100000, usdtDeposited := 98715, rewardsEarned := 0,
    lastInteraction := 0, canClaim := false }

/-! Association-list map lemmas. -/

theorem mapGet_mapSet_self {α β : Type} [DecidableEq α] (m : List (α × β)) (k : α) (v : β) :
    mapGet (mapSet m k v) k = some v := by
  induction m with
  | nil => simp [mapGet, mapSet]
  | cons hd tl ih =>
    obtain ⟨k', v'⟩ := hd
    by_cases h : k' = k
    · subst h
      simp [mapGet, mapSet]
    · simp [mapGet, mapSet, h, ih]

theorem mapGet_mapSet_ne {α β : Type} [DecidableEq α] (m : List (α × β)) (k k' : α) (v : β)
    (h : k' ≠ k) : mapGet (mapSet m k v) k' = mapGet m k' := by
  induction m with
  | nil => simp [mapGet, mapSet, Ne.symm h]
  | cons hd tl ih =>
    obtain ⟨k'', v'⟩ := hd
    by_cases h2 : k'' = k
    · subst h2
      simp [mapGet, mapSet, Ne.symm h]
    · simp [mapGet, mapSet, h2, ih]

/-! Arithmetic lemmas about the AMM formulas. -/

theorem calculateFee_le (a : Nat) : calculateFee a ≤ a := by
  unfold calculateFee tradingFee basisPoints
  calc a * 30 / 10000 ≤ a * 10000 / 10000 :=
        Nat.div_le_div_right (Nat.mul_le_mul_left a (by norm_num))
    _ = a := Nat.mul_div_cancel a (by norm_num)

/-- The constant-product output is strictly below the reserve it is paid
from, whenever both reserves are positive. -/
theorem amm_out_lt (n x y : Nat) (hx : 0 < x) (hy : 0 < y) :
    n * x / (y + n) < x := by
  apply Nat.div_lt_of_lt_mul
  exact mul_lt_mul_of_pos_right (Nat.lt_add_of_pos_left hy) hx

/-- The constant-product output never exceeds the reserve it is paid from. -/
theorem amm_out_le (n x y : Nat) : n * x / (y + n) ≤ x := by
  rcases Nat.eq_zero_or_pos (y + n) with h0 | hpos
  · rw [h0, Nat.div_zero]
    exact Nat.zero_le x
  · calc n * x / (y + n) ≤ (y + n) * x / (y + n) :=
          Nat.div_le_div_right (Nat.mul_le_mul_right x (Nat.le_add_left n y))
      _ = x := Nat.mul_div_cancel_left x hpos

/-- Core constant-product inequality: paying out `r = floor(n*Y/(X+n))` from
the `Y` side while the full input `a ≥ n` enters the `X` side never decreases
the product of the reserves. -/
theorem amm_product_ge (X Y a r n : Nat) (hn : n ≤ a)
    (hr : r = n * Y / (X + n)) : X * Y ≤ (X + a) * (Y - r) := by
  have h1 : r * (X + n) ≤ n * Y := by
    rw [hr]
    exact Nat.div_mul_le_self (n * Y) (X + n)
  have h2 : r ≤ Y := by
    rw [hr]
    exact amm_out_le n Y X
  zify [h2]
  have hA : (X : ℤ) * r ≤ n * ((Y : ℤ) - r) := by
    push_cast at h1
    nlinarith [h1]
  have hB : (n : ℤ) * ((Y : ℤ) - r) ≤ a * ((Y : ℤ) - r) := by
    have hnn : (0 : ℤ) ≤ (Y : ℤ) - r := by
      have := h2
      omega
    exact mul_le_mul_of_nonneg_right (by exact_mod_cast hn) hnn
  nlinarith [hA, hB]

/-! Frame lemma: `update-zone-if-needed` only touches the pool it is given,
and never changes that pool's reserves. -/

theorem updateZoneIfNeeded_pools_ne (c : Contract) (ht pid pid' : Nat)
    (hne : pid' ≠ pid) :
    mapGet (updateZoneIfNeeded c ht pid).pools pid' = mapGet c.pools pid' := by
  unfold updateZoneIfNeeded
  cases hmg : mapGet c.pools pid with
  | none => rfl
  | some pool =>
    by_cases hcond : pool.zoneUnlockTime ≤ ht ∧ pool.currentZone < pool.zoneCount
    · simp only [hcond, if_true]
      exact mapGet_mapSet_ne _ _ _ _ hne
    · simp only [hcond, if_false]

/-- Success characterization of `buy-usdt`: the pool existed and was active,
the amount was positive, the returned amount is the constant-product output on
the pre-trade reserves, and the stored pool is the stale-snapshot merge (so
its zone fields are exactly the pre-trade ones). -/
theorem buyUsdt_ok {c : Contract} {ht s pid a : Nat} {c' : Contract} {r : Nat}
    (hok : buyUsdt c ht s pid a = .ok (c', r)) :
    ∃ pool, mapGet c.pools pid = some pool ∧ pool.active = true ∧ 0 < a ∧
      r = (a - calculateFee a) * pool.usdtReserve / (pool.stxReserve + (a - calculateFee a)) ∧
      0 < r ∧
      mapGet c'.pools pid = some { pool with
        stxReserve := pool.stxReserve + a,
        usdtReserve := pool.usdtReserve - r,
        totalVolume := pool.totalVolume + a,
        totalTransactions := pool.totalTransactions + 1 } ∧
      (∀ pid', pid' ≠ pid → mapGet c'.pools pid' = mapGet c.pools pid') := by
  unfold buyUsdt at hok
  cases hmg : mapGet c.pools pid with
  | none =>
    rw [hmg] at hok
    exact absurd hok (by simp)
  | some pool =>
    rw [hmg] at hok
    simp only [] at hok
    refine ⟨pool, rfl, ?_⟩
    split at hok
    · exact absurd hok (by simp)
    rename_i hact
    split at hok
    · exact absurd hok (by simp)
    rename_i ha
    split at hok
    · exact absurd hok (by simp)
    rename_i hout
    split at hok
    · exact absurd hok (by simp)
    injection hok with hok
    obtain ⟨hc, hr⟩ := Prod.mk.inj hok
    subst hc
    subst hr
    refine ⟨by simpa using hact, Nat.pos_of_ne_zero ha, rfl,
      Nat.pos_of_ne_zero hout, ?_, ?_⟩
    · exact mapGet_mapSet_self ..
    · intro pid' hne
      calc mapGet (mapSet (updateZoneIfNeeded c ht pid).pools pid _) pid'
          = mapGet (updateZoneIfNeeded c ht pid).pools pid' :=
            mapGet_mapSet_ne _ _ _ _ hne
        _ = mapGet c.pools pid' := updateZoneIfNeeded_pools_ne c ht pid pid' hne

/-- Success characterization of `sell-usdt`, the mirror image of
`buyUsdt_ok`: the output is the constant-product output on the pre-trade
reserves, the zone was unlocked, and the stored pool is the stale-snapshot
merge. -/
theorem sellUsdt_ok {c : Contract} {ht s pid a : Nat} {c' : Contract} {r : Nat}
    (hok : sellUsdt c ht s pid a = .ok (c', r)) :
    ∃ pool position, mapGet c.pools pid = some pool ∧
      mapGet c.positions (pid, s) = some position ∧
      pool.active = true ∧ 0 < a ∧ a ≤ position.usdtDeposited ∧
      r = (a - calculateFee a) * pool.stxReserve / (pool.usdtReserve + (a - calculateFee a)) ∧
      0 < r ∧ isZoneUnlocked c ht pid = true ∧
      mapGet c'.pools pid = some { pool with
        stxReserve := pool.stxReserve - r,
        usdtReserve := pool.usdtReserve + a,
        totalVolume := pool.totalVolume + a,
        totalTransactions := pool.totalTransactions + 1 } ∧
      (∀ pid', pid' ≠ pid → mapGet c'.pools pid' = mapGet c.pools pid') := by
  unfold sellUsdt at hok
  cases hmg : mapGet c.pools pid with
  | none =>
    rw [hmg] at hok
    exact absurd hok (by simp)
  | some pool =>
    rw [hmg] at hok
    cases hps : mapGet c.positions (pid, s) with
    | none =>
      rw [hps] at hok
      exact absurd hok (by simp)
    | some position =>
      rw [hps] at hok
      simp only [] at hok
      refine ⟨pool, position, rfl, rfl, ?_⟩
      split at hok
      · exact absurd hok (by simp)
      rename_i hact
      split at hok
      · exact absurd hok (by simp)
      rename_i ha
      split at hok
      · exact absurd hok (by simp)
      rename_i hbal
      split at hok
      · exact absurd hok (by simp)
      rename_i hout
      split at hok
      · exact absurd hok (by simp)
      rename_i hzone
      split at hok
      · exact absurd hok (by simp)
      injection hok with hok
      obtain ⟨hc, hr⟩ := Prod.mk.inj hok
      subst hc
      subst hr
      refine ⟨by simpa using hact, Nat.pos_of_ne_zero ha, by omega, rfl,
        Nat.pos_of_ne_zero hout, by simpa using hzone, ?_, ?_⟩
      · exact mapGet_mapSet_self ..
      · intro pid' hne
        calc mapGet (mapSet (updateZoneIfNeeded c ht pid).pools pid _) pid'
            = mapGet (updateZoneIfNeeded c ht pid).pools pid' :=
              mapGet_mapSet_ne _ _ _ _ hne
          _ = mapGet c.pools pid' := updateZoneIfNeeded_pools_ne c ht pid pid' hne

/-- Success characterization of `create-liquidity-pool`. -/
theorem createLiquidityPool_ok {c : Contract} {ht s iS iQ zc zd : Nat}
    {c' : Contract} {pid : Nat}
    (hok : createLiquidityPool c ht s iS iQ zc zd = .ok (c', pid)) :
    0 < iS ∧ 0 < iQ ∧ 0 < zc ∧ zc ≤ 10 ∧ 0 < zd ∧ pid = c.poolNonce ∧
    c'.pools = mapSet c.pools c.poolNonce
      { lpFarmer := s, stxReserve := iS, usdtReserve := iQ, totalVolume := 0,
        totalTransactions := 0, zoneCount := zc, currentZone := 0,
        zoneUnlockTime := ht + zd, zoneDuration := zd, createdAt := ht,
        active := true } := by
  unfold createLiquidityPool at hok
  simp only [] at hok
  split at hok
  · exact absurd hok (by simp)
  rename_i hS
  split at hok
  · exact absurd hok (by simp)
  rename_i hQ
  split at hok
  · exact absurd hok (by simp)
  rename_i hz
  split at hok
  · exact absurd hok (by simp)
  rename_i hd
  split at hok
  · exact absurd hok (by simp)
  injection hok with hok
  obtain ⟨hc, hp⟩ := Prod.mk.inj hok
  subst hc
  subst hp
  rw [not_not] at hz
  exact ⟨Nat.pos_of_ne_zero hS, Nat.pos_of_ne_zero hQ, hz.1, hz.2,
    Nat.pos_of_ne_zero hd, rfl, rfl⟩

/-- C1: the claim says every successful buy or sell issued when
now >= zone_unlock_height and current_zone < zone_count leaves the pool with
current_zone advanced by 1 and zone_unlock_height advanced by zone_duration
(Scenario C's sell should leave current_zone = 1).  The code violates this:
`update-zone-if-needed` does write the advanced zone, but the subsequent
reserve-updating `map-set` merges into the pool snapshot read before the
advance, reverting both fields.  Evaluated on Scenario C (pool of `cA`,
buy of 100000 at height 0, then sell of 49000 at height 11, where
11 >= zone_unlock_height = 10 and current_zone = 0 < zone_count = 3): the
sell succeeds, yet the stored pool still has current_zone = 0 and
zone_unlock_height = 10. -/
theorem C1_zone_advance_clobbered :
    resultAmount (sellUsdt cB 11 1 0 49000) = some 49588 ∧
    (getPoolInfo cB 0).map Pool.currentZone = some 0 ∧
    (getPoolInfo cB 0).map Pool.zoneUnlockTime = some 10 ∧
    (getPoolInfo cB 0).map Pool.zoneCount = some 3 ∧
    (getPoolInfo (stateAfter (sellUsdt cB 11 1 0 49000) cB) 0).map Pool.currentZone = some 0 ∧
    (getPoolInfo (stateAfter (sellUsdt cB 11 1 0 49000) cB) 0).map Pool.zoneUnlockTime = some 10 := by
  decide

/-- C2 counterexample: the Scenario A buy of 100000 on the freshly created
pool does not return 98713.  (The code divides by
base_reserve + net_in = 10_099_700, giving 98_715; the figure 98_713 in the
claim matches neither that nor floor(99700*10^7/10_100_000) = 98_712.) -/
theorem C2_quote_out_not_98713 :
    resultAmount (buyUsdt cA 0 1 0 100000) = some 98715 ∧
    resultAmount (buyUsdt cA 0 1 0 100000) ≠ some 98713 := by
  decide

/-- C2 amended: starting from the freshly created pool of Scenario A
(base = quote = 10_000_000, zone_count = 3, zone_duration = 10, height 0),
a buy of 100_000 base units succeeds and returns quote_out = 98_715
(fee = 300, net_in = 99_700), leaving quote_reserve = 10_000_000 - 98_715
and base_reserve = 10_000_000 + 100_000. -/
theorem C2_scenario_a_buy :
    resultAmount (buyUsdt cA 0 1 0 100000) = some 98715 ∧
    calculateFee 100000 = 300 ∧
    100000 - calculateFee 100000 = 99700 ∧
    (getPoolInfo cB 0).map Pool.usdtReserve = some (10000000 - 98715) ∧
    (getPoolInfo cB 0).map Pool.stxReserve = some (10000000 + 100000) := by
  decide

/-- C9: a successful create_pool followed immediately by get_pool_info on the
returned id yields a pool record with exactly the requested reserves,
zone_count and zone_duration, together with current_zone = 0,
total_volume = 0, and zone_unlock_height = creation height + zone_duration
(owner, created_at and active = true included). -/
theorem C9_create_roundtrip (c : Contract) (ht s iS iQ zc zd pid : Nat)
    (c' : Contract)
    (hok : createLiquidityPool c ht s iS iQ zc zd = .ok (c', pid)) :
    getPoolInfo c' pid = some ⟨s, iS, iQ, 0, 0, zc, 0, ht + zd, zd, ht, true⟩ := by
  obtain ⟨-, -, -, -, -, hpid, hpools⟩ := createLiquidityPool_ok hok
  subst hpid
  unfold getPoolInfo
  rw [hpools]
  exact mapGet_mapSet_self ..

/-- Witness for C9: creating the Scenario A pool in the empty state and
reading it back yields exactly the expected record. -/
theorem C9_witness : getPoolInfo cA 0 = some poolA :=
  C9_create_roundtrip emptyContract 0 0 10000000 10000000 3 10 0 cA rfl

/-- C10 counterexample: the claim says the fee arithmetic can never abort a
trade for any input amount, but under Clarity's checked 128-bit arithmetic
the multiplication `(* amount u30)` in `calculate-fee` overflows and aborts
for the representable amount 2^128 - 1 (indeed for any amount whose product
with 30 exceeds 2^128 - 1). -/
theorem C10_fee_aborts_huge :
    calculateFeeChecked (2 ^ 128 - 1) = none ∧
    calculateFeeChecked 123456 = some 370 := by
  decide

/-- C10 amended: for every amount whose fee multiplication stays within the
128-bit range (amount * 30 <= 2^128 - 1), the checked fee computation does
not abort and agrees with floor(amount*30/10000), the fee is at most the
amount itself, and the net-input subtraction amount - fee inside buy and
sell never underflows. -/
theorem C10_fee_never_underflows (a : Nat) (h : a * tradingFee ≤ uintMax) :
    calculateFeeChecked a = some (calculateFee a) ∧
    calculateFee a ≤ a ∧ (a - calculateFee a) + calculateFee a = a := by
  refine ⟨?_, calculateFee_le a, Nat.sub_add_cancel (calculateFee_le a)⟩
  unfold calculateFeeChecked calculateFee
  rw [if_pos h]

/-- Witness for C10 at a concrete in-range amount. -/
theorem C10_witness :
    calculateFeeChecked 123456 = some (calculateFee 123456) ∧
    calculateFee 123456 ≤ 123456 ∧
    (123456 - calculateFee 123456) + calculateFee 123456 = 123456 :=
  C10_fee_never_underflows 123456 (by decide)

/-- C8: for a pool with total_volume > 0 and an existing position,
estimate_reward returns
floor(floor(contribution * total_volume / total_volume) * (100 + zone*50) / 100)
with contribution = base_deposited + quote_deposited — the numerator's fee
term is the pool's own total_volume, so the base reward equals the
contribution itself; when total_volume = 0 it returns 0. -/
theorem C8_estimate_reward (c : Contract) (pid u : Nat) (pool : Pool)
    (pos : UserPosition)
    (hp : mapGet c.pools pid = some pool)
    (hpos : mapGet c.positions (pid, u) = some pos) :
    (0 < pool.totalVolume →
      estimateUserReward c pid u = .ok ((pos.stxDeposited + pos.usdtDeposited) *
          pool.totalVolume / pool.totalVolume * (100 + pool.currentZone * 50) / 100) ∧
      (pos.stxDeposited + pos.usdtDeposited) * pool.totalVolume / pool.totalVolume
        = pos.stxDeposited + pos.usdtDeposited) ∧
    (pool.totalVolume = 0 → estimateUserReward c pid u = .ok 0) := by
  constructor
  · intro htv
    constructor
    · simp [estimateUserReward, hp, hpos, htv, calculateUserReward, calculateZoneMultiplier]
    · exact Nat.mul_div_cancel _ htv
  · intro h0
    simp [estimateUserReward, hp, hpos, h0]

/-- Witness for C8: user 1's position in the post-buy state `cB`, whose pool
has total_volume = 100000 > 0. -/
theorem C8_witness :
    (0 < poolB.totalVolume →
      estimateUserReward cB 0 1 = .ok ((posB.stxDeposited + posB.usdtDeposited) *
          poolB.totalVolume / poolB.totalVolume * (100 + poolB.currentZone * 50) / 100) ∧
      (posB.stxDeposited + posB.usdtDeposited) * poolB.totalVolume / poolB.totalVolume
        = posB.stxDeposited + posB.usdtDeposited) ∧
    (poolB.totalVolume = 0 → estimateUserReward cB 0 1 = .ok 0) :=
  C8_estimate_reward cB 0 1 poolB posB rfl rfl

/-- C7: a claim_rewards call on an active pool with the zone unlocked, an
existing position whose can_claim is false, and a computed reward strictly
greater than 0, fails with Unauthorized (and, the operation failing, no state
change is produced — failures return no successor state). -/
theorem C7_claim_unauthorized (c : Contract) (ht s pid : Nat) (pool : Pool)
    (pos : UserPosition)
    (hp : mapGet c.pools pid = some pool)
    (hpos : mapGet c.positions (pid, s) = some pos)
    (hact : pool.active = true)
    (hunlock : pool.zoneUnlockTime ≤ ht)
    (hclaim : pos.canClaim = false)
    (hrw : 0 < (if 0 < pool.totalVolume then
        calculateUserReward (pos.stxDeposited + pos.usdtDeposited)
          pool.totalVolume pool.currentZone pool.totalVolume else 0)) :
    claimRewards c ht s pid = .error .unauthorized := by
  have hzone : isZoneUnlocked c ht pid = true := by
    unfold isZoneUnlocked
    rw [hp]
    simpa using hunlock
  unfold claimRewards
  rw [hp, hpos]
  simp [hact, hzone, hclaim, Nat.pos_iff_ne_zero.mp hrw]

/-- Witness for C7: in `cB` user 1 has never sold (can_claim = false) while
the estimated reward is positive; claiming at height 11 (zone unlocked)
fails with Unauthorized. -/
theorem C7_witness : claimRewards cB 11 1 0 = Except.error Err.unauthorized :=
  C7_claim_unauthorized cB 11 1 0 poolB posB rfl rfl rfl (by decide) rfl (by decide)

/-- C6: a sell on an active pool by a caller whose position covers the amount
(quote_deposited >= quote_in > 0) and whose computed base_out is positive
fails with ZoneLocked exactly when the current height is strictly below the
pool's zone_unlock_height. -/
theorem C6_sell_zone_locked_iff (c : Contract) (ht s pid a : Nat) (pool : Pool)
    (pos : UserPosition)
    (hp : mapGet c.pools pid = some pool)
    (hpos : mapGet c.positions (pid, s) = some pos)
    (hact : pool.active = true)
    (ha : 0 < a)
    (hd : a ≤ pos.usdtDeposited)
    (hout : 0 < (a - calculateFee a) * pool.stxReserve /
        (pool.usdtReserve + (a - calculateFee a))) :
    (sellUsdt c ht s pid a = .error .zoneLocked ↔ ht < pool.zoneUnlockTime) := by
  unfold sellUsdt
  rw [hp, hpos]
  by_cases hlt : ht < pool.zoneUnlockTime
  · have hz : isZoneUnlocked c ht pid = false := by
      unfold isZoneUnlocked
      rw [hp]
      simpa using hlt
    simp [hact, Nat.pos_iff_ne_zero.mp ha, Nat.not_lt.mpr hd,
      Nat.pos_iff_ne_zero.mp hout, hz, hlt]
  · have hz : isZoneUnlocked c ht pid = true := by
      unfold isZoneUnlocked
      rw [hp]
      simpa using Nat.not_lt.mp hlt
    simp [hact, Nat.pos_iff_ne_zero.mp ha, Nat.not_lt.mpr hd,
      Nat.pos_iff_ne_zero.mp hout, hz, hlt]
    intro hcontra
    split at hcontra <;> simp_all

/-- Witness for C6, Scenario B: immediately after the Scenario A buy, user 1
sells 50000 at height 0; the iff specializes to the ZoneLocked failure since
0 < zone_unlock_height = 10. -/
theorem C6_witness :
    (sellUsdt cB 0 1 0 50000 = Except.error Err.zoneLocked ↔
      0 < poolB.zoneUnlockTime) :=
  C6_sell_zone_locked_iff cB 0 1 0 50000 poolB posB rfl rfl rfl (by decide)
    (by decide) (by decide)

/-- C3: for a buy on an existing active pool with base_in > 0, the returned
amount is floor(net_in * quote_reserve / (base_reserve + net_in)) on the
pre-trade reserves with net_in = base_in - floor(base_in*30/10000); the
operation fails with InsufficientLiquidity when that value is 0; and on
success base_reserve grows by the full base_in while quote_reserve shrinks by
the returned amount. -/
theorem C3_buy_spec (c : Contract) (ht s pid a : Nat) (pool : Pool)
    (hp : mapGet c.pools pid = some pool)
    (hact : pool.active = true)
    (ha : 0 < a) :
    ((a - calculateFee a) * pool.usdtReserve /
        (pool.stxReserve + (a - calculateFee a)) = 0 →
      buyUsdt c ht s pid a = .error .insufficientLiquidity) ∧
    (∀ c' r, buyUsdt c ht s pid a = .ok (c', r) →
      r = (a - calculateFee a) * pool.usdtReserve /
          (pool.stxReserve + (a - calculateFee a)) ∧
      ∃ pool', mapGet c'.pools pid = some pool' ∧
        pool'.stxReserve = pool.stxReserve + a ∧
        pool'.usdtReserve = pool.usdtReserve - r) := by
  constructor
  · intro h0
    unfold buyUsdt
    rw [hp]
    simp [hact, Nat.pos_iff_ne_zero.mp ha, h0]
  · intro c' r hok
    obtain ⟨pool0, hp0, -, -, hr, -, hnew, -⟩ := buyUsdt_ok hok
    rw [hp] at hp0
    obtain rfl := Option.some.inj hp0
    exact ⟨hr, ⟨_, hnew, rfl, rfl⟩⟩

/-- Witness for C3: the Scenario A buy of 100000 on the pool of `cA`. -/
theorem C3_witness :
    ((100000 - calculateFee 100000) * poolA.usdtReserve /
        (poolA.stxReserve + (100000 - calculateFee 100000)) = 0 →
      buyUsdt cA 0 1 0 100000 = .error .insufficientLiquidity) ∧
    (∀ c' r, buyUsdt cA 0 1 0 100000 = .ok (c', r) →
      r = (100000 - calculateFee 100000) * poolA.usdtReserve /
          (poolA.stxReserve + (100000 - calculateFee 100000)) ∧
      ∃ pool', mapGet c'.pools 0 = some pool' ∧
        pool'.stxReserve = poolA.stxReserve + 100000 ∧
        pool'.usdtReserve = poolA.usdtReserve - r) :=
  C3_buy_spec cA 0 1 0 100000 poolA rfl rfl (by decide)

/-- C5: across any successful buy or sell, the product of the pool's reserves
never decreases (the fee is funded from the trade input before the swap math,
so the full input enters the reserves while the output is computed from the
fee-reduced input). -/
theorem C5_product_nondecreasing (c : Contract) (ht s pid a r : Nat)
    (pool pool' : Pool) (c' : Contract)
    (hp : mapGet c.pools pid = some pool)
    (hop : buyUsdt c ht s pid a = .ok (c', r) ∨ sellUsdt c ht s pid a = .ok (c', r))
    (hp' : mapGet c'.pools pid = some pool') :
    pool.stxReserve * pool.usdtReserve ≤ pool'.stxReserve * pool'.usdtReserve := by
  rcases hop with hok | hok
  · obtain ⟨pool0, hp0, -, -, hr, -, hnew, -⟩ := buyUsdt_ok hok
    rw [hp] at hp0
    obtain rfl := Option.some.inj hp0
    rw [hnew] at hp'
    obtain rfl := Option.some.inj hp'
    exact amm_product_ge pool.stxReserve pool.usdtReserve a r
      (a - calculateFee a) (Nat.sub_le a _) hr
  · obtain ⟨pool0, pos, hp0, -, -, -, -, hr, -, -, hnew, -⟩ := sellUsdt_ok hok
    rw [hp] at hp0
    obtain rfl := Option.some.inj hp0
    rw [hnew] at hp'
    obtain rfl := Option.some.inj hp'
    have h := amm_product_ge pool.usdtReserve pool.stxReserve a r
      (a - calculateFee a) (Nat.sub_le a _) hr
    calc pool.stxReserve * pool.usdtReserve
        = pool.usdtReserve * pool.stxReserve := Nat.mul_comm ..
      _ ≤ (pool.usdtReserve + a) * (pool.stxReserve - r) := h
      _ = (pool.stxReserve - r) * (pool.usdtReserve + a) := Nat.mul_comm ..

/-- Witness for C5: the Scenario A buy, from `poolA` to `poolB`. -/
theorem C5_witness :
    poolA.stxReserve * poolA.usdtReserve ≤ poolB.stxReserve * poolB.usdtReserve :=
  C5_product_nondecreasing cA 0 1 0 100000 98715 poolA poolB cB rfl
    (Or.inl rfl) rfl

/-! Preservation lemmas for the C4 reserve invariant. -/

theorem reservesPositive_buy {c c' : Contract} {ht s pid a r : Nat}
    (hinv : reservesPositive c) (hok : buyUsdt c ht s pid a = .ok (c', r)) :
    reservesPositive c' := by
  obtain ⟨pool, hp, -, -, hr, hrpos, hnew, hframe⟩ := buyUsdt_ok hok
  intro pid' pool' hp'
  by_cases hne : pid' = pid
  · subst hne
    rw [hnew] at hp'
    obtain rfl := Option.some.inj hp'
    obtain ⟨hB, hQ⟩ := hinv pid' pool hp
    have hlt : r < pool.usdtReserve := by
      rw [hr]
      exact amm_out_lt _ _ _ hQ hB
    exact ⟨by simp; omega, by simp; omega⟩
  · rw [hframe pid' hne] at hp'
    exact hinv pid' pool' hp'

theorem reservesPositive_sell {c c' : Contract} {ht s pid a r : Nat}
    (hinv : reservesPositive c) (hok : sellUsdt c ht s pid a = .ok (c', r)) :
    reservesPositive c' := by
  obtain ⟨pool, pos, hp, -, -, -, -, hr, hrpos, -, hnew, hframe⟩ := sellUsdt_ok hok
  intro pid' pool' hp'
  by_cases hne : pid' = pid
  · subst hne
    rw [hnew] at hp'
    obtain rfl := Option.some.inj hp'
    obtain ⟨hB, hQ⟩ := hinv pid' pool hp
    have hlt : r < pool.stxReserve := by
      rw [hr]
      exact amm_out_lt _ _ _ hB hQ
    exact ⟨by simp; omega, by simp; omega⟩
  · rw [hframe pid' hne] at hp'
    exact hinv pid' pool' hp'

theorem reservesPositive_applyTrade {c : Contract} (hinv : reservesPositive c)
    (op : TradeOp) : reservesPositive (applyTrade c op) := by
  cases op with
  | buy ht s pid a =>
    cases hok : buyUsdt c ht s pid a with
    | ok pr =>
      obtain ⟨c', r⟩ := pr
      simpa [applyTrade, stateAfter, hok] using reservesPositive_buy hinv hok
    | error e =>
      simpa [applyTrade, stateAfter, hok] using hinv
  | sell ht s pid a =>
    cases hok : sellUsdt c ht s pid a with
    | ok pr =>
      obtain ⟨c', r⟩ := pr
      simpa [applyTrade, stateAfter, hok] using reservesPositive_sell hinv hok
    | error e =>
      simpa [applyTrade, stateAfter, hok] using hinv

theorem reservesPositive_applyTrades {c : Contract} (hinv : reservesPositive c)
    (ops : List TradeOp) : reservesPositive (applyTrades c ops) := by
  induction ops generalizing c with
  | nil => exact hinv
  | cons op rest ih =>
    simp only [applyTrades, List.foldl]
    exact ih (reservesPositive_applyTrade hinv op)

theorem reservesPositive_create {c c' : Contract} {ht s iS iQ zc zd pid : Nat}
    (hinv : reservesPositive c)
    (hok : createLiquidityPool c ht s iS iQ zc zd = .ok (c', pid)) :
    reservesPositive c' := by
  obtain ⟨hS, hQ, -, -, -, -, hpools⟩ := createLiquidityPool_ok hok
  intro pid' pool' hp'
  rw [hpools] at hp'
  by_cases hne : pid' = c.poolNonce
  · subst hne
    rw [mapGet_mapSet_self] at hp'
    obtain rfl := Option.some.inj hp'
    exact ⟨hS, hQ⟩
  · rw [mapGet_mapSet_ne _ _ _ _ hne] at hp'
    exact hinv pid' pool' hp'

/-- C4: starting from any state whose pools all have positive reserves (in
particular the empty state), a pool created with positive initial reserves,
followed by any finite sequence of (successful) buy and sell operations,
always keeps every pool's base_reserve and quote_reserve strictly positive:
neither side of the AMM is ever fully drained. -/
theorem C4_reserves_never_drain (c c' : Contract)
    (ht s iS iQ zc zd pid : Nat) (ops : List TradeOp)
    (hinv : reservesPositive c)
    (hok : createLiquidityPool c ht s iS iQ zc zd = .ok (c', pid)) :
    reservesPositive (applyTrades c' ops) :=
  reservesPositive_applyTrades (reservesPositive_create hinv hok) ops

/-- Witness for C4: the Scenario A pool, with the Scenario A buy and the
Scenario C sell applied. -/
theorem C4_witness :
    reservesPositive (applyTrades cA
      [TradeOp.buy 0 1 0 100000, TradeOp.sell 11 1 0 49000]) :=
  C4_reserves_never_drain emptyContract cA 0 0 10000000 10000000 3 10 0
    [TradeOp.buy 0 1 0 100000, TradeOp.sell 11 1 0 49000]
    (fun _ _ hp => nomatch hp) rfl

end Puddle
